import Mathlib

/-!
Verification of the response-parsing and tracker-commit subsystem of the
RPG-companion chat extension.

Texts are modelled as `List Char`.  Every JavaScript regular-expression
replace used by the source is embedded as an explicit character scanner that
follows the leftmost-match / greedy / lazy backtracking behaviour of the
original pattern.  JS `\s` is modelled by the ASCII whitespace characters
that occur in chat text (space, newline, tab, carriage return).
-/

namespace RPG

/-- Shorthand: the character list of a string literal. -/
def chars (s : String) : List Char := s.data

/-- JS `\s` for the ASCII range. -/
def isWSChar (c : Char) : Bool := c == ' ' || c == '\n' || c == '\t' || c == '\r'

def isAlphaChar (c : Char) : Bool :=
  ('A' ≤ c && c ≤ 'Z') || ('a' ≤ c && c ≤ 'z')

def isDigitChar (c : Char) : Bool := '0' ≤ c && c ≤ '9'

/-- JS `\w`. -/
def isWordChar (c : Char) : Bool := isAlphaChar c || isDigitChar c || c == '_'

/-- JS `String.prototype.trim` (both ends). -/
def jsTrim (t : List Char) : List Char :=
  ((t.dropWhile isWSChar).reverse.dropWhile isWSChar).reverse

/-- Does `s` start with the literal pattern `p` (exact characters)? -/
def litAt : List Char → List Char → Bool
  | [], _ => true
  | _ :: _, [] => false
  | p :: ps, c :: cs => p == c && litAt ps cs

/-- Does `s` start with pattern `p`, compared case-insensitively?
`p` is given in lowercase. -/
def litAtCI : List Char → List Char → Bool
  | [], _ => true
  | _ :: _, [] => false
  | p :: ps, c :: cs => p == c.toLower && litAtCI ps cs

/-- Does predicate `p` hold at some suffix position of `s` (including the
empty suffix)?  This is the generic "unanchored regex search" scanner. -/
def scanAny (p : List Char → Bool) : List Char → Bool
  | [] => p []
  | c :: cs => p (c :: cs) || scanAny p cs

/-- Case-insensitive substring containment (`pattern` in lowercase). -/
def hasSubCI (p : List Char) (s : List Char) : Bool := scanAny (litAtCI p) s

/-- Does `p` hold at some line-start position of `s` (multiline `^`)?
The boolean argument says whether the current position is a line start. -/
def scanLines (p : List Char → Bool) : Bool → List Char → Bool
  | atLS, [] => atLS && p []
  | atLS, c :: cs => (atLS && p (c :: cs)) || scanLines p (c == '\n') cs

/-- Split `s` at the first exact occurrence of `p`: returns the part before
the match and the part after it. -/
def splitSub (p : List Char) : List Char → Option (List Char × List Char)
  | [] => if litAt p [] then some ([], []) else none
  | c :: cs =>
    if litAt p (c :: cs) then some ([], (c :: cs).drop p.length)
    else match splitSub p cs with
         | some (pre, post) => some (c :: pre, post)
         | none => none

/-- Case-insensitive version of `splitSub` (`p` in lowercase). -/
def splitSubCI (p : List Char) : List Char → Option (List Char × List Char)
  | [] => if litAtCI p [] then some ([], []) else none
  | c :: cs =>
    if litAtCI p (c :: cs) then some ([], (c :: cs).drop p.length)
    else match splitSubCI p cs with
         | some (pre, post) => some (c :: pre, post)
         | none => none

/-- JS `text.replace(/OPEN[\s\S]*?CLOSE/gi, '')` for literal tag pairs:
removes every span from an opening tag to the first closing tag after it.
Used for the `<think>`/`<thinking>` reasoning-markup removal. -/
def removeTagPairs (openT closeT : List Char) : Nat → List Char → List Char
  | 0, s => s
  | n + 1, s =>
    match splitSubCI openT s with
    | none => s
    | some (pre, rest) =>
      match splitSubCI closeT rest with
      | none => s
      | some (_, rest2) => pre ++ removeTagPairs openT closeT n rest2

/-- JS `[...text.matchAll(/```([\s\S]*?)```/g)]`: the contents of all fenced
code regions, scanning left to right, lazily matched. -/
def fenceBlocks : Nat → List Char → List (List Char)
  | 0, _ => []
  | n + 1, s =>
    match splitSub (chars "```") s with
    | none => []
    | some (_, rest) =>
      match splitSub (chars "```") rest with
      | none => []
      | some (content, rest2) => content :: fenceBlocks n rest2

/-!  ### The `stripBrackets` post-processing pipeline

Each replace of the source function is one scanner below, applied in the
source order.  Scanners carry a fuel argument (one unit per consumed
character suffices); fuel `0` returns the remaining text unchanged.
-/

/-- `\s*$` with the `m` flag at the current position: the greedy number of
whitespace characters consumed so that the position after them is the end of
input or sits before a `'\n'`.  Returns `none` when no amount works. -/
def wsEolSpanFrom : Nat → List Char → Option Nat
  | 0, l =>
    if l.isEmpty || l.head? == some '\n' then some 0 else none
  | m + 1, l =>
    if (l.drop (m + 1)).isEmpty || l.get? (m + 1) == some '\n' then some (m + 1)
    else wsEolSpanFrom m l

def wsEolSpan (l : List Char) : Option Nat :=
  wsEolSpanFrom ((l.takeWhile isWSChar).length) l

/-- Characters allowed inside a `[...]` placeholder: `[A-Za-z\s\/]`. -/
def phChar (c : Char) : Bool := isAlphaChar c || isWSChar c || c == '/'

/-- Characters of the label patterns: `[A-Za-z\s]`. -/
def labelChar (c : Char) : Bool := isAlphaChar c || isWSChar c

/-- The keyword list used to recognise unfilled template placeholders. -/
def placeholderKeywords : List (List Char) :=
  [chars "location", chars "mood", chars "emoji", chars "name",
   chars "description", chars "placeholder", chars "time", chars "date",
   chars "weather", chars "temperature", chars "action", chars "appearance",
   chars "skill", chars "quest", chars "item", chars "character",
   chars "field", chars "value", chars "details", chars "relationship",
   chars "thoughts", chars "stat", chars "status", chars "lover",
   chars "friend", chars "enemy", chars "neutral", chars "weekday",
   chars "month", chars "year", chars "forecast"]

/-- Number of maximal non-whitespace runs (tokens of `split(/\s+/)` on a
trimmed string). -/
def wordTokensAux : Bool → List Char → Nat
  | _, [] => 0
  | inRun, c :: cs =>
    if isWSChar c then wordTokensAux false cs
    else (if inRun then 0 else 1) + wordTokensAux true cs

/-- JS `content.trim().split(/\s+/).length` (splitting "" gives one token). -/
def wordCount (t : List Char) : Nat :=
  let u := jsTrim t
  if u.isEmpty then 1 else wordTokensAux false u

/-- The source's `isPlaceholder` check on the captured bracket content. -/
def isPlaceholderContent (content : List Char) : Bool :=
  placeholderKeywords.any (fun k => hasSubCI k (jsTrim (content.map Char.toLower))) ||
  (wordCount content ≤ 3 && !content.isEmpty && content.all phChar)

/-- Stage 2 of `stripBrackets`: the `while` loop that strips one layer of
enclosing `[]`/`{}`/`()` around the whole text, re-trimming each time. -/
def sbUnwrap : Nat → List Char → List Char
  | 0, t => t
  | n + 1, t =>
    if (t.head? == some '[' && t.getLast? == some ']') ||
       (t.head? == some '\x7b' && t.getLast? == some '\x7d') ||
       (t.head? == some '(' && t.getLast? == some ')')
    then sbUnwrap n (jsTrim (t.drop 1).dropLast)
    else t

/-- Stage 3: `text.replace(/\[([A-Za-z\s\/]+)\]/g, keepOrDrop)` — drops
placeholder-looking bracketed content and keeps the rest. -/
def sbPlaceholders : Nat → List Char → List Char
  | 0, t => t
  | _ + 1, [] => []
  | n + 1, c :: rest =>
    if c == '[' then
      let run := rest.takeWhile phChar
      match run, rest.drop run.length with
      | _ :: _, ']' :: tail =>
        if isPlaceholderContent run then sbPlaceholders n tail
        else '[' :: (run ++ ']' :: sbPlaceholders n tail)
      | _, _ => '[' :: sbPlaceholders n rest
    else c :: sbPlaceholders n rest

/-- Stage 4: `text.replace(/^([A-Za-z\s]+):\s*$/gm, '')`.  Note that
`[A-Za-z\s]+` may span newlines and that the colon necessarily sits at the
end of the maximal letter/whitespace run. -/
def sbLabelEmpty : Nat → Bool → List Char → List Char
  | 0, _, t => t
  | _ + 1, _, [] => []
  | n + 1, atLS, c :: rest =>
    if atLS then
      let run := (c :: rest).takeWhile labelChar
      match run, (c :: rest).drop run.length with
      | _ :: _, ':' :: tail =>
        match wsEolSpan tail with
        | some m =>
          let newLS := if m == 0 then false else tail.get? (m - 1) == some '\n'
          sbLabelEmpty n newLS (tail.drop m)
        | none => c :: sbLabelEmpty n (c == '\n') rest
      | _, _ => c :: sbLabelEmpty n (c == '\n') rest
    else c :: sbLabelEmpty n (c == '\n') rest

/-- Stage 5: `text.replace(/^([A-Za-z\s]+):\s*,/gm, '$1:')`. -/
def sbLabelComma : Nat → Bool → List Char → List Char
  | 0, _, t => t
  | _ + 1, _, [] => []
  | n + 1, atLS, c :: rest =>
    if atLS then
      let run := (c :: rest).takeWhile labelChar
      match run, (c :: rest).drop run.length with
      | _ :: _, ':' :: tail =>
        let w := tail.takeWhile isWSChar
        match tail.drop w.length with
        | ',' :: tail2 => run ++ ':' :: sbLabelComma n false tail2
        | _ => c :: sbLabelComma n (c == '\n') rest
      | _, _ => c :: sbLabelComma n (c == '\n') rest
    else c :: sbLabelComma n (c == '\n') rest

/-- Stage 6: `text.replace(/:\s*\|/g, ':')`. -/
def sbColonPipe : Nat → List Char → List Char
  | 0, t => t
  | _ + 1, [] => []
  | n + 1, c :: rest =>
    if c == ':' then
      let w := rest.takeWhile isWSChar
      match rest.drop w.length with
      | '|' :: tail => ':' :: sbColonPipe n tail
      | _ => ':' :: sbColonPipe n rest
    else c :: sbColonPipe n rest

/-- Stage 7: `text.replace(/\|\s*\|/g, '|')`. -/
def sbPipePipe : Nat → List Char → List Char
  | 0, t => t
  | _ + 1, [] => []
  | n + 1, c :: rest =>
    if c == '|' then
      let w := rest.takeWhile isWSChar
      match rest.drop w.length with
      | '|' :: tail => '|' :: sbPipePipe n tail
      | _ => '|' :: sbPipePipe n rest
    else c :: sbPipePipe n rest

/-- Stage 8: `text.replace(/\|\s*$/gm, '')`. -/
def sbTrailingPipe : Nat → List Char → List Char
  | 0, t => t
  | _ + 1, [] => []
  | n + 1, c :: rest =>
    if c == '|' then
      match wsEolSpan rest with
      | some m => sbTrailingPipe n (rest.drop m)
      | none => '|' :: sbTrailingPipe n rest
    else c :: sbTrailingPipe n rest

/-- Stage 9: `text.replace(/\s{2,}/g, ' ')` (any whitespace run of length at
least two, newlines included, becomes one space). -/
def sbSpaces : Nat → List Char → List Char
  | 0, t => t
  | _ + 1, [] => []
  | n + 1, c :: rest =>
    if isWSChar c then
      let w := rest.takeWhile isWSChar
      if w.length ≥ 1 then ' ' :: sbSpaces n (rest.drop w.length)
      else c :: sbSpaces n rest
    else c :: sbSpaces n rest

/-- Largest `m ≤` first argument such that `l.get? m = '\n'` (the greedy
`\s*` before the literal `'\n'` of `^\s*\n`). -/
def nlSpanFrom : Nat → List Char → Option Nat
  | 0, l => if l.head? == some '\n' then some 0 else none
  | m + 1, l =>
    if l.get? (m + 1) == some '\n' then some (m + 1) else nlSpanFrom m l

/-- Stage 10: `text.replace(/^\s*\n/gm, '')`. -/
def sbEmptyLines : Nat → Bool → List Char → List Char
  | 0, _, t => t
  | _ + 1, _, [] => []
  | n + 1, atLS, c :: rest =>
    if atLS then
      match nlSpanFrom (((c :: rest).takeWhile isWSChar).length) (c :: rest) with
      | some m => sbEmptyLines n true ((c :: rest).drop (m + 1))
      | none => c :: sbEmptyLines n (c == '\n') rest
    else c :: sbEmptyLines n (c == '\n') rest

/-- The source's `stripBrackets`: trim, unwrap enclosing brackets, drop
placeholder brackets, clean empty labels and stray pipes, collapse
whitespace, drop empty lines, trim.  (`stripBrackets(null)` never occurs in
the modelled call sites, whose arguments are always strings.) -/
def stripBrackets (text : List Char) : List Char :=
  let t0 := jsTrim text
  let t1 := sbUnwrap (t0.length + 1) t0
  let t2 := sbPlaceholders (t1.length + 1) t1
  let t3 := sbLabelEmpty (t2.length + 1) true t2
  let t4 := sbLabelComma (t3.length + 1) true t3
  let t5 := sbColonPipe (t4.length + 1) t4
  let t6 := sbPipePipe (t5.length + 1) t5
  let t7 := sbTrailingPipe (t6.length + 1) t6
  let t8 := sbSpaces (t7.length + 1) t7
  let t9 := sbEmptyLines (t8.length + 1) true t8
  jsTrim t9

/-!  ### Section classification (`parseResponse` heuristics) -/

/-- `HDR\s*\n\s*---` at the current position (`hdr` in lowercase): the header
followed by a whitespace run containing at least one newline, then `---` at
the first non-whitespace character.  Returns the matched length. -/
def hdrSepLen (hdr : List Char) (s : List Char) : Option Nat :=
  if litAtCI hdr s then
    let rest := s.drop hdr.length
    let w := rest.takeWhile isWSChar
    if w.any (· == '\n') && litAt (chars "---") (rest.drop w.length) then
      some (hdr.length + w.length + 3)
    else none
  else none

/-- Unanchored search for `HDR\s*\n\s*---` (case-insensitive). -/
def hasHdrSep (hdr : List Char) (s : List Char) : Bool :=
  scanAny (fun t => (hdrSepLen hdr t).isSome) s

/-- `HDRs?\s*\n\s*---`: optional plural `s` on the header, greedy. -/
def hasHdrSepOpt (hdr : List Char) (s : List Char) : Bool :=
  scanAny (fun t =>
    (hdrSepLen (hdr ++ ['s']) t).isSome || (hdrSepLen hdr t).isSome) s

/-- `LABEL:\s*\d+%` at the current position (`label` lowercase, with colon). -/
def pctAt (label : List Char) (s : List Char) : Bool :=
  litAtCI label s &&
    (let rest := s.drop label.length
     let w := rest.takeWhile isWSChar
     let after := rest.drop w.length
     let d := after.takeWhile isDigitChar
     !d.isEmpty && (after.drop d.length).head? == some '%')

def hasPct (label : List Char) (s : List Char) : Bool := scanAny (pctAt label) s

/-- `/^-\s+\w+/m` at a line-start position. -/
def dashWordAt : List Char → Bool
  | '-' :: rest =>
    let w := rest.takeWhile isWSChar
    !w.isEmpty &&
      (match rest.drop w.length with
       | c :: _ => isWordChar c
       | [] => false)
  | _ => false

/-- `/^D\.\s+\w+/m` at a line-start position, for a given digit `d`. -/
def numLineAt (d : Char) : List Char → Bool
  | c :: '.' :: rest =>
    c == d &&
      (let w := rest.takeWhile isWSChar
       !w.isEmpty &&
         (match rest.drop w.length with
          | c2 :: _ => isWordChar c2
          | [] => false))
  | _ => false

def isStatsBlock (content : List Char) : Bool :=
  hasHdrSep (chars "stats") content ||
  hasHdrSep (chars "user stats") content ||
  hasHdrSep (chars "player stats") content ||
  (hasPct (chars "health:") content && hasPct (chars "energy:") content)

def isInfoBoxBlock (content : List Char) : Bool :=
  hasHdrSep (chars "info box") content ||
  hasHdrSep (chars "scene info") content ||
  hasHdrSep (chars "information") content ||
  (hasSubCI (chars "date:") content && hasSubCI (chars "location:") content &&
   hasSubCI (chars "time:") content)

def isCharactersBlock (content : List Char) : Bool :=
  hasHdrSep (chars "present characters") content ||
  hasHdrSep (chars "characters") content ||
  hasHdrSep (chars "character thoughts") content ||
  (scanLines dashWordAt true content && hasSubCI (chars "details:") content)

def isActionsBlock (content : List Char) : Bool :=
  hasHdrSepOpt (chars "action suggestion") content ||
  hasHdrSepOpt (chars "suggested action") content ||
  (scanLines (numLineAt '1') true content &&
   scanLines (numLineAt '2') true content &&
   scanLines (numLineAt '3') true content)

/-!  ### Combined-block splitting -/

/-- Lookahead `(?=\n\s*\n\s*(H1|H2))`: at the current position a newline, a
whitespace run containing a second newline, and one of the headers at the
first non-whitespace character. -/
def nlNlHdrAt (hdrs : List (List Char)) : List Char → Bool
  | '\n' :: rest =>
    let w := rest.takeWhile isWSChar
    w.any (· == '\n') && hdrs.any (fun h => litAtCI h (rest.drop w.length))
  | _ => false

/-- Consume characters of `s` until `look` holds at the current position or
the end of input is reached (the lazy `[\s\S]*?` before a lookahead
alternated with `$`); returns the consumed prefix. -/
def takeUntilLook (look : List Char → Bool) : Nat → List Char → List Char
  | 0, _ => []
  | _ + 1, [] => []
  | n + 1, c :: cs => if look (c :: cs) then [] else c :: takeUntilLook look n cs

/-- Leftmost match of `hdrLenAt`-anchored section with a lazy tail bounded by
`look`: the matched text `HDR\s*\n\s*---[\s\S]*?(?=look|$)`. -/
def combinedSection (hdrLenAt : List Char → Option Nat) (look : List Char → Bool) :
    Nat → List Char → Option (List Char)
  | 0, _ => none
  | _ + 1, [] => none
  | n + 1, c :: cs =>
    match hdrLenAt (c :: cs) with
    | some k =>
      some ((c :: cs).take k ++ takeUntilLook look (cs.length + 1) ((c :: cs).drop k))
    | none => combinedSection hdrLenAt look n cs

/-- `/(User )?Stats\s*\n\s*---[\s\S]*?(?=\n\s*\n\s*(Info Box|Present Characters)|$)/i`. -/
def combinedStatsMatch (s : List Char) : Option (List Char) :=
  combinedSection
    (fun t =>
      match hdrSepLen (chars "user stats") t with
      | some k => some k
      | none => hdrSepLen (chars "stats") t)
    (nlNlHdrAt [chars "info box", chars "present characters"])
    (s.length + 1) s

/-- `/Info Box\s*\n\s*---[\s\S]*?(?=\n\s*\n\s*Present Characters|$)/i`. -/
def combinedInfoMatch (s : List Char) : Option (List Char) :=
  combinedSection (hdrSepLen (chars "info box"))
    (nlNlHdrAt [chars "present characters"]) (s.length + 1) s

/-- `/Present Characters\s*\n\s*---[\s\S]*$/i` (greedy to end of input). -/
def combinedCharsMatch (s : List Char) : Option (List Char) :=
  combinedSection (hdrSepLen (chars "present characters"))
    (fun _ => false) (s.length + 1) s

/-!  ### `parseResponse` -/

/-- The four fields extracted by `parseResponse` (each `null` or a string). -/
structure ParsedFields where
  userStats : Option (List Char)
  infoBox : Option (List Char)
  characterThoughts : Option (List Char)
  actionSuggestions : Option (List Char)
deriving DecidableEq, Repr

/-- JS truthiness of a `string|null` value (`null` and `""` are falsy). -/
def truthyOpt : Option (List Char) → Bool
  | none => false
  | some t => !t.isEmpty

/-- The loop body of `parseResponse` for one fenced block. -/
def applyBlock (r : ParsedFields) (blockContent : List Char) : ParsedFields :=
  let content := jsTrim blockContent
  let hasMultiple :=
    hasHdrSep (chars "stats") content &&
      (hasHdrSep (chars "info box") content ||
       hasHdrSep (chars "present characters") content)
  if hasMultiple then
    let r1 :=
      match combinedStatsMatch content with
      | some seg =>
        if !truthyOpt r.userStats then
          { r with userStats := some (stripBrackets (jsTrim seg)) }
        else r
      | none => r
    let r2 :=
      match combinedInfoMatch content with
      | some seg =>
        if !truthyOpt r1.infoBox then
          { r1 with infoBox := some (stripBrackets (jsTrim seg)) }
        else r1
      | none => r1
    match combinedCharsMatch content with
    | some seg =>
      if !truthyOpt r2.characterThoughts then
        { r2 with characterThoughts := some (stripBrackets (jsTrim seg)) }
      else r2
    | none => r2
  else
    if isStatsBlock content && !truthyOpt r.userStats then
      { r with userStats := some (stripBrackets content) }
    else if isInfoBoxBlock content && !truthyOpt r.infoBox then
      { r with infoBox := some (stripBrackets content) }
    else if isCharactersBlock content && !truthyOpt r.characterThoughts then
      { r with characterThoughts := some (stripBrackets content) }
    else if isActionsBlock content && !truthyOpt r.actionSuggestions then
      { r with actionSuggestions := some content }
    else r

/-- The candidate regions `parseResponse` scans: reasoning markup is
stripped first, then all fenced code regions are extracted. -/
def responseBlocks (responseText : List Char) : List (List Char) :=
  let c1 := removeTagPairs (chars "<think>") (chars "</think>")
      (responseText.length + 1) responseText
  let c2 := removeTagPairs (chars "<thinking>") (chars "</thinking>")
      (c1.length + 1) c1
  fenceBlocks (c2.length + 1) c2

/-- The source's `parseResponse`: strip reasoning markup, extract fenced
code regions, classify each region in order. -/
def parseResponse (responseText : List Char) : ParsedFields :=
  (responseBlocks responseText).foldl applyBlock ⟨none, none, none, none⟩

/-- A fenced region on which no classification heuristic fires. -/
def blockUnclassified (blockContent : List Char) : Bool :=
  let content := jsTrim blockContent
  !(hasHdrSep (chars "stats") content &&
      (hasHdrSep (chars "info box") content ||
       hasHdrSep (chars "present characters") content)) &&
  !isStatsBlock content && !isInfoBoxBlock content &&
  !isCharactersBlock content && !isActionsBlock content

/-!  ### The visible-message cleaning pipeline (`onMessageReceived`)

The source removes recognised tracker fences with five regexes of the form
```[^`]*?HDR\s*\n\s*---[^`]*?```\s*   (case-insensitive, global)
then deletes standalone `---` divider lines and collapses newline runs.
-/

/-- `[^`]*?```\s*` at the current position: the characters before the next
backtick, which must open a closing triple fence, then trailing whitespace.
Returns the consumed length. -/
def fenceTailMatch (s : List Char) : Option Nat :=
  let pre := s.takeWhile (· != '`')
  let after := s.drop pre.length
  if litAt (chars "```") after then
    some (pre.length + 3 + ((after.drop 3).takeWhile isWSChar).length)
  else none

/-- The part of a fence match after the opening backticks:
`[^`]*?HDRs?\s*\n\s*---[^`]*?```\s*`, with lazy scanning of the first gap and
greedy choice of the optional plural `s`.  Returns the consumed length. -/
def fenceInnerMatch (hdr : List Char) (optS : Bool) : Nat → List Char → Option Nat
  | 0, _ => none
  | _ + 1, [] => none
  | n + 1, c :: cs =>
    if c == '`' then none
    else
      let tryVariant : List Char → Option Nat := fun hv =>
        match hdrSepLen hv (c :: cs) with
        | some k => (fenceTailMatch ((c :: cs).drop k)).map (k + ·)
        | none => none
      match (if optS then tryVariant (hdr ++ ['s']) else none) with
      | some r => some r
      | none =>
        match tryVariant hdr with
        | some r => some r
        | none => (fenceInnerMatch hdr optS n cs).map (· + 1)

/-- One global fence-removal replace for a given header. -/
def fenceRemove (hdr : List Char) (optS : Bool) : Nat → List Char → List Char
  | 0, s => s
  | _ + 1, [] => []
  | n + 1, c :: cs =>
    if litAt (chars "```") (c :: cs) then
      match fenceInnerMatch hdr optS (cs.length + 1) (cs.drop 2) with
      | some inner => fenceRemove hdr optS n ((c :: cs).drop (3 + inner))
      | none => c :: fenceRemove hdr optS n cs
    else c :: fenceRemove hdr optS n cs

/-- `\s*---\s*$` at a line-start position (the leading `\s*` may span
newlines); returns the matched length. -/
def dashEolSpan (s : List Char) : Option Nat :=
  let w := (s.takeWhile isWSChar).length
  if litAt (chars "---") (s.drop w) then
    (wsEolSpan (s.drop (w + 3))).map (fun m => w + 3 + m)
  else none

/-- `text.replace(/^\s*---\s*$/gm, '')`. -/
def dashLineRemove : Nat → Bool → List Char → List Char
  | 0, _, s => s
  | _ + 1, _, [] => []
  | n + 1, atLS, c :: cs =>
    if atLS then
      match dashEolSpan (c :: cs) with
      | some t =>
        dashLineRemove n (((c :: cs).take t).getLast? == some '\n') ((c :: cs).drop t)
      | none => c :: dashLineRemove n (c == '\n') cs
    else c :: dashLineRemove n (c == '\n') cs

/-- `text.replace(/\n{3,}/g, '\n\n')`. -/
def collapseNl : Nat → List Char → List Char
  | 0, s => s
  | _ + 1, [] => []
  | n + 1, c :: cs =>
    if c == '\n' then
      let r := cs.takeWhile (· == '\n')
      if r.length ≥ 2 then '\n' :: '\n' :: collapseNl n (cs.drop r.length)
      else c :: collapseNl n cs
    else c :: collapseNl n cs

/-- The cleaning stages that run after the fence removals: divider-line
removal and newline collapsing. -/
def postFenceClean (s : List Char) : List Char :=
  let d := dashLineRemove (s.length + 1) true s
  collapseNl (d.length + 1) d

/-- The whole `cleanedMessage` computation of `onMessageReceived` (before
the final `.trim()` applied at the assignment sites). -/
def cleanMessageText (s : List Char) : List Char :=
  let a1 := fenceRemove (chars "stats") false (s.length + 1) s
  let a2 := fenceRemove (chars "info box") false (a1.length + 1) a1
  let a3 := fenceRemove (chars "present characters") false (a2.length + 1) a2
  let a4 := fenceRemove (chars "action suggestion") true (a3.length + 1) a3
  let a5 := fenceRemove (chars "suggested action") true (a4.length + 1) a4
  postFenceClean a5

/-!  ### `parseActionSuggestions` -/

/-- Greedy `\s*` after `N.` (or a bullet), backtracked so that at least one
non-newline character follows: the largest gap `m` at most the whitespace-run
length such that the character at `m` exists and is not `'\n'`. -/
def gapFrom : Nat → List Char → Option Nat
  | 0, l =>
    match l.head? with
    | some c => if c != '\n' then some 0 else none
    | none => none
  | m + 1, l =>
    match l.get? (m + 1) with
    | some c => if c != '\n' then some (m + 1) else gapFrom m l
    | none => gapFrom m l

/-- `^\s*(\d+)\.\s*(.+?)$` at a line-start position: returns the second
capture group and the rest of the input after the match. -/
def numAttempt (s : List Char) : Option (List Char × List Char) :=
  let w := s.takeWhile isWSChar
  let s1 := s.drop w.length
  let d := s1.takeWhile isDigitChar
  if d.isEmpty then none
  else
    match s1.drop d.length with
    | '.' :: afterDot =>
      match gapFrom ((afterDot.takeWhile isWSChar).length) afterDot with
      | some m =>
        let v := afterDot.drop m
        let g2 := v.takeWhile (· != '\n')
        some (g2, v.drop g2.length)
      | none => none
    | _ => none

/-- `^\s*[-•*]\s*(.+?)$` at a line-start position. -/
def bulletAttempt (s : List Char) : Option (List Char × List Char) :=
  let w := s.takeWhile isWSChar
  match s.drop w.length with
  | c :: rest =>
    if c == '-' || c == '•' || c == '*' then
      match gapFrom ((rest.takeWhile isWSChar).length) rest with
      | some m =>
        let v := rest.drop m
        let g2 := v.takeWhile (· != '\n')
        some (g2, v.drop g2.length)
      | none => none
    else none
  | [] => none

/-- `actionText.replace(/\[.*?\]/g, '')`: remove lazy bracket spans (the
dot does not cross newlines). -/
def removeBracketSpans : Nat → List Char → List Char
  | 0, s => s
  | _ + 1, [] => []
  | n + 1, c :: cs =>
    if c == '[' then
      let seg := cs.takeWhile (fun d => d != ']' && d != '\n')
      match cs.drop seg.length with
      | ']' :: tail => removeBracketSpans n tail
      | _ => c :: removeBracketSpans n cs
    else c :: removeBracketSpans n cs

def quoteWsChar (c : Char) : Bool := c == '"' || isWSChar c

/-- `.replace(/^["\s]+|["\s]+$/g, '')`. -/
def stripQuotesWs (t : List Char) : List Char :=
  ((t.dropWhile quoteWsChar).reverse.dropWhile quoteWsChar).reverse

/-- The per-candidate cleaning of an accepted action line. -/
def cleanAction (t : List Char) : List Char :=
  jsTrim (stripQuotesWs (removeBracketSpans (t.length + 1) t))

/-- The `exec` loop over one line pattern (`numAttempt` or `bulletAttempt`)
with the acceptance filter and the stop-after-three break of the source. -/
def scanActions (attempt : List Char → Option (List Char × List Char)) :
    Nat → Bool → List Char → List (List Char) → List (List Char)
  | 0, _, _, acc => acc
  | _ + 1, _, [], acc => acc
  | n + 1, atLS, c :: cs, acc =>
    if atLS then
      match attempt (c :: cs) with
      | some (g2, rest) =>
        let actionText := jsTrim g2
        let acc' :=
          if !actionText.isEmpty && actionText.length < 200 then
            let cleaned := cleanAction actionText
            if !cleaned.isEmpty then acc ++ [cleaned] else acc
          else acc
        if acc'.length ≥ 3 then acc'
        else scanActions attempt n false rest acc'
      | none => scanActions attempt n (c == '\n') cs acc
    else scanActions attempt n (c == '\n') cs acc

/-- The source's `parseActionSuggestions`: numbered entries first, bullet
markers only when no numbered entry was accepted, at most three results. -/
def parseActionSuggestions (actionsText : List Char) : List (List Char) :=
  if actionsText.isEmpty then []
  else
    let ns := scanActions numAttempt (actionsText.length + 1) true actionsText []
    if ns.isEmpty then
      scanActions bulletAttempt (actionsText.length + 1) true actionsText []
    else ns

/-- Modelled from the spec: the acceptance filter as the specification words
it — "discard entries shorter than 1 character or longer than 200
characters" — so an entry of exactly 200 characters is kept.  Everything
else mirrors `scanActions`. -/
def scanActionsSpec (attempt : List Char → Option (List Char × List Char)) :
    Nat → Bool → List Char → List (List Char) → List (List Char)
  | 0, _, _, acc => acc
  | _ + 1, _, [], acc => acc
  | n + 1, atLS, c :: cs, acc =>
    if atLS then
      match attempt (c :: cs) with
      | some (g2, rest) =>
        let actionText := jsTrim g2
        let acc' :=
          if !actionText.isEmpty && actionText.length ≤ 200 then
            let cleaned := cleanAction actionText
            if !cleaned.isEmpty then acc ++ [cleaned] else acc
          else acc
        if acc'.length ≥ 3 then acc'
        else scanActionsSpec attempt n false rest acc'
      | none => scanActionsSpec attempt n (c == '\n') cs acc
    else scanActionsSpec attempt n (c == '\n') cs acc

/-- Modelled from the spec: `parseActionSuggestions` as claimed, with only
the length filter read literally from the specification sentence. -/
def parseActionSuggestionsSpec (actionsText : List Char) : List (List Char) :=
  if actionsText.isEmpty then []
  else
    let ns := scanActionsSpec numAttempt (actionsText.length + 1) true actionsText []
    if ns.isEmpty then
      scanActionsSpec bulletAttempt (actionsText.length + 1) true actionsText []
    else ns

/-!  ### Tracker commit state machine

State variables from `core/state.js` and the event handlers
`onGenerationStarted` (injector), `onMessageSent`, `onMessageReceived` and
`onMessageSwiped` (sillytavern integration).  Prompt injection, rendering,
persistence and the `parseUserStats` mutation of display settings are
outside the modelled state.  `onMessageReceived` only ever reads and
rewrites `chat[chat.length - 1]`, so it is modelled on the optional last
chat message directly.
-/

inductive GenMode
  | together
  | separate
  | other
deriving DecidableEq, Repr

/-- The settings consulted by the modelled handlers. -/
structure Settings where
  enabled : Bool
  generationMode : GenMode
deriving DecidableEq, Repr

/-- `lastGeneratedData` (the `html` field exists in the source and is not
touched by the modelled handlers). -/
structure LastGenData where
  userStats : Option (List Char)
  infoBox : Option (List Char)
  characterThoughts : Option (List Char)
  html : Option (List Char)
deriving DecidableEq, Repr

/-- `committedTrackerData`. -/
structure CommittedData where
  userStats : Option (List Char)
  infoBox : Option (List Char)
  characterThoughts : Option (List Char)
deriving DecidableEq, Repr

/-- One entry of `message.extra.rpg_companion_swipes` (the swipe ledger). -/
structure SwipeSnapshot where
  userStats : Option (List Char)
  infoBox : Option (List Char)
  characterThoughts : Option (List Char)
  actionSuggestions : Option (List Char)
deriving DecidableEq, Repr

/-- A chat message as the handlers see it: `swipes` is the text array
(`none` entries are missing/undefined slots), `extraSwipes` is the ledger
(`none` when `extra` or `extra.rpg_companion_swipes` is absent). -/
structure ChatMessage where
  is_user : Bool
  mes : List Char
  swipe_id : Option Nat
  swipes : Option (List (Option (List Char)))
  extraSwipes : Option (List (Nat × SwipeSnapshot))
deriving DecidableEq, Repr

/-- The module-level mutable tracker state. -/
structure TrackerState where
  lastGenerated : LastGenData
  committed : CommittedData
  lastActionWasSwipe : Bool
  isGenerating : Bool
  isPlotProgression : Bool
deriving DecidableEq, Repr

/-- Lookup in the swipe ledger object. -/
def ledgerLookup : List (Nat × SwipeSnapshot) → Nat → Option SwipeSnapshot
  | [], _ => none
  | (j, w) :: rest, i => if j = i then some w else ledgerLookup rest i

/-- Keyed assignment into the swipe ledger object. -/
def ledgerInsert : List (Nat × SwipeSnapshot) → Nat → SwipeSnapshot →
    List (Nat × SwipeSnapshot)
  | [], i, v => [(i, v)]
  | (j, w) :: rest, i, v =>
    if j = i then (i, v) :: rest else (j, w) :: ledgerInsert rest i v

/-- JS `x || null` on a `string|null` value: the empty string becomes null. -/
def jsOrNull : Option (List Char) → Option (List Char)
  | some t => if t.isEmpty then none else some t
  | none => none

/-- `onGenerationStarted` (injector module): commits `lastGeneratedData`
into `committedTrackerData` before the prompt is built, unless the pending
swipe flag is set; the separate-mode branch additionally skips the
tracker-update generation (`isGenerating`), and image generation requests
(`quietImage`) return before any commit. -/
def onGenerationStarted (quietImage : Bool) (cfg : Settings)
    (st : TrackerState) : TrackerState :=
  if quietImage then st
  else if cfg.enabled = false then st
  else
    let st1 :=
      if cfg.generationMode = GenMode.separate ∧ st.isGenerating = false ∧
          st.lastActionWasSwipe = false then
        { st with committed :=
            ⟨st.lastGenerated.userStats, st.lastGenerated.infoBox,
             st.lastGenerated.characterThoughts⟩ }
      else st
    if cfg.generationMode = GenMode.together ∧ st1.lastActionWasSwipe = false then
      { st1 with committed :=
          ⟨st1.lastGenerated.userStats, st1.lastGenerated.infoBox,
           st1.lastGenerated.characterThoughts⟩ }
    else st1

/-- `onMessageSent`: a new user message is not a swipe. -/
def onMessageSent (cfg : Settings) (st : TrackerState) : TrackerState :=
  if cfg.enabled = false then st else { st with lastActionWasSwipe := false }

/-- The swipe-existence test of `onMessageSwiped` (`message.swipes` holds a
non-empty string at the current swipe index). -/
def swipeExists (m : ChatMessage) : Bool :=
  match m.swipes with
  | some arr =>
    match arr.get? (m.swipe_id.getD 0) with
    | some (some t) => !t.isEmpty
    | _ => false
  | none => false

/-- `onMessageReceived`: in together mode, parse the new assistant message,
merge non-null parsed fields into `lastGeneratedData`, record the parsed
snapshot in the swipe ledger, auto-commit when no committed data exists,
clean the visible message, and finally reset the swipe and plot flags.  The
separate-mode auto-update runs asynchronously through the API client and is
outside the modelled state. -/
def onMessageReceived (cfg : Settings) (st : TrackerState)
    (lastMsg? : Option ChatMessage) : TrackerState × Option ChatMessage :=
  if cfg.enabled = false then (st, lastMsg?)
  else
    let (st1, msg1) :=
      if cfg.generationMode = GenMode.together then
        match lastMsg? with
        | some m =>
          if m.is_user then (st, lastMsg?)
          else
            let parsed := parseResponse m.mes
            let lg := st.lastGenerated
            let lg' : LastGenData :=
              { userStats :=
                  if truthyOpt parsed.userStats then parsed.userStats else lg.userStats
                infoBox :=
                  if truthyOpt parsed.infoBox then parsed.infoBox else lg.infoBox
                characterThoughts :=
                  if truthyOpt parsed.characterThoughts then parsed.characterThoughts
                  else lg.characterThoughts
                html := lg.html }
            let swipeId := m.swipe_id.getD 0
            let snap : SwipeSnapshot :=
              ⟨parsed.userStats, parsed.infoBox, parsed.characterThoughts,
               parsed.actionSuggestions⟩
            let ledger' := ledgerInsert (m.extraSwipes.getD []) swipeId snap
            let cm := st.committed
            let cm' :=
              if truthyOpt cm.userStats = false ∧ truthyOpt cm.infoBox = false ∧
                  truthyOpt cm.characterThoughts = false then
                (⟨parsed.userStats, parsed.infoBox, parsed.characterThoughts⟩ :
                  CommittedData)
              else cm
            let cleaned := jsTrim (cleanMessageText m.mes)
            let swipes' :=
              match m.swipes with
              | some arr =>
                match arr.get? swipeId with
                | some (some _) => some (arr.set swipeId (some cleaned))
                | _ => some arr
              | none => none
            let m' : ChatMessage :=
              { m with mes := cleaned, swipes := swipes', extraSwipes := some ledger' }
            ({ st with lastGenerated := lg', committed := cm' }, some m')
        | none => (st, lastMsg?)
      else (st, lastMsg?)
    let st2 :=
      if st1.lastActionWasSwipe then { st1 with lastActionWasSwipe := false } else st1
    let st3 :=
      if st2.isPlotProgression then { st2 with isPlotProgression := false } else st2
    (st3, msg1)

/-- `onMessageSwiped`: load the ledger snapshot of the swipe the user
navigated to into `lastGeneratedData` (display only), set the pending-swipe
flag only when the swipe has no stored text yet, and never touch
`committedTrackerData`. -/
def onMessageSwiped (cfg : Settings) (chat : List ChatMessage)
    (messageIndex : Nat) (st : TrackerState) : TrackerState :=
  if cfg.enabled = false then st
  else
    match chat[messageIndex]? with
    | none => st
    | some m =>
      if m.is_user then st
      else
        let swipeId := m.swipe_id.getD 0
        let st1 :=
          if swipeExists m = false then { st with lastActionWasSwipe := true } else st
        match m.extraSwipes with
        | some ledger =>
          match ledgerLookup ledger swipeId with
          | some sd =>
            { st1 with lastGenerated :=
                { userStats := jsOrNull sd.userStats
                  infoBox := jsOrNull sd.infoBox
                  characterThoughts := jsOrNull sd.characterThoughts
                  html := st1.lastGenerated.html } }
          | none => st1
        | none => st1

/-!  ### Helper lemmas -/

lemma mem_of_head? {l : List Char} {c : Char} (h : l.head? = some c) : c ∈ l := by
  cases l <;> simp_all

lemma andE {a b : Bool} (h : (a && b) = true) : a = true ∧ b = true := by
  rw [Bool.and_eq_true] at h
  exact h


lemma litAt_fence_eq_false {c : Char} (cs : List Char) (h : c ≠ '`') :
    litAt (chars "```") (c :: cs) = false := by
  have e : chars "```" = '`' :: '`' :: '`' :: [] := rfl
  rw [e]
  simp only [litAt, Bool.and_eq_false_imp]
  intro hb
  exact absurd (eq_of_beq hb).symm h

lemma splitSub_fence_none : ∀ s : List Char, '`' ∉ s →
    splitSub (chars "```") s = none := by
  intro s
  induction s with
  | nil => intro _; rfl
  | cons c cs ih =>
    intro h
    have hc : c ≠ '`' := fun e => h (e ▸ List.mem_cons_self c cs)
    have hcs : '`' ∉ cs := fun e => h (List.mem_cons_of_mem c e)
    simp [splitSub, litAt_fence_eq_false cs hc, ih hcs]

lemma fenceBlocks_eq_nil {s : List Char} (h : '`' ∉ s) :
    ∀ n, fenceBlocks n s = [] := by
  intro n
  cases n with
  | zero => rfl
  | succ n => simp only [fenceBlocks, splitSub_fence_none s h]

lemma splitSubCI_sub (p : List Char) : ∀ s pre post,
    splitSubCI p s = some (pre, post) → pre ⊆ s ∧ post ⊆ s := by
  intro s
  induction s with
  | nil =>
    intro pre post h
    simp only [splitSubCI] at h
    split at h
    · cases h
      exact ⟨fun _ hx => absurd hx (List.not_mem_nil _),
        fun _ hx => absurd hx (List.not_mem_nil _)⟩
    · cases h
  | cons c cs ih =>
    intro pre post h
    simp only [splitSubCI] at h
    split at h
    · cases h
      exact ⟨fun _ hx => absurd hx (List.not_mem_nil _), List.drop_subset _ _⟩
    · rcases h1 : splitSubCI p cs with _ | ⟨pr, po⟩
      · rw [h1] at h; cases h
      · rw [h1] at h
        cases h
        obtain ⟨hp, hq⟩ := ih pr _ h1
        refine ⟨?_, fun x hx => List.mem_cons_of_mem c (hq hx)⟩
        intro x hx
        rcases List.mem_cons.mp hx with rfl | hx
        · exact List.mem_cons_self _ _
        · exact List.mem_cons_of_mem c (hp hx)

lemma removeTagPairs_sub (o cl : List Char) : ∀ n s,
    removeTagPairs o cl n s ⊆ s := by
  intro n
  induction n with
  | zero => intro s x hx; exact hx
  | succ n ih =>
    intro s x hx
    simp only [removeTagPairs] at hx
    rcases h1 : splitSubCI o s with _ | ⟨pre, rest⟩
    · simp only [h1] at hx; exact hx
    · simp only [h1] at hx
      rcases h2 : splitSubCI cl rest with _ | ⟨mid, rest2⟩
      · simp only [h2] at hx; exact hx
      · simp only [h2] at hx
        rcases List.mem_append.mp hx with hx | hx
        · exact (splitSubCI_sub o s pre rest h1).1 hx
        · have hr2 : rest2 ⊆ rest := (splitSubCI_sub cl rest mid rest2 h2).2
          exact (splitSubCI_sub o s pre rest h1).2 (hr2 (ih rest2 hx))

/-- With no backtick in the input, `parseResponse` finds no fenced region
and returns the all-null snapshot. -/
lemma parseResponse_allNull {s : List Char} (h : '`' ∉ s) :
    parseResponse s = ⟨none, none, none, none⟩ := by
  unfold parseResponse responseBlocks
  have h1 : '`' ∉ removeTagPairs (chars "<think>") (chars "</think>")
      (s.length + 1) s :=
    fun hx => h (removeTagPairs_sub _ _ _ s hx)
  have h2 : '`' ∉ removeTagPairs (chars "<thinking>") (chars "</thinking>")
      ((removeTagPairs (chars "<think>") (chars "</think>") (s.length + 1) s).length + 1)
      (removeTagPairs (chars "<think>") (chars "</think>") (s.length + 1) s) :=
    fun hx => h1 (removeTagPairs_sub _ _ _ _ hx)
  simp only [fenceBlocks_eq_nil h2, List.foldl_nil]

/-- A block on which no heuristic fires leaves the accumulator unchanged. -/
lemma applyBlock_id (r : ParsedFields) (b : List Char)
    (h : blockUnclassified b = true) : applyBlock r b = r := by
  unfold blockUnclassified at h
  obtain ⟨h0, h5⟩ := andE h
  obtain ⟨h1, h6⟩ := andE h0
  obtain ⟨h2, h7⟩ := andE h1
  obtain ⟨h3, h4⟩ := andE h2
  simp only [Bool.not_eq_eq_eq_not, Bool.not_true] at h3 h4 h7 h6 h5
  unfold applyBlock
  simp [h3, h4, h7, h6, h5]

lemma foldl_applyBlock_id (r : ParsedFields) : ∀ bs : List (List Char),
    (∀ b ∈ bs, blockUnclassified b = true) → bs.foldl applyBlock r = r := by
  intro bs
  induction bs with
  | nil => intro _; rfl
  | cons b rest ih =>
    intro h
    rw [List.foldl_cons, applyBlock_id r b (h b (List.mem_cons_self _ _))]
    exact ih (fun x hx => h x (List.mem_cons_of_mem _ hx))

/-- When every fenced region fails to classify, the parse is all-null. -/
lemma parseResponse_allNull_of_unclassified {s : List Char}
    (h : ∀ b ∈ responseBlocks s, blockUnclassified b = true) :
    parseResponse s = ⟨none, none, none, none⟩ := by
  unfold parseResponse
  exact foldl_applyBlock_id _ _ h

lemma fenceRemove_id (hdr : List Char) (opt : Bool) : ∀ n s, '`' ∉ s →
    fenceRemove hdr opt n s = s := by
  intro n
  induction n with
  | zero => intro s _; rfl
  | succ n ih =>
    intro s h
    match s with
    | [] => rfl
    | c :: cs =>
      have hc : c ≠ '`' := fun e => h (e ▸ List.mem_cons_self c cs)
      have hcs : '`' ∉ cs := fun e => h (List.mem_cons_of_mem c e)
      simp [fenceRemove, litAt_fence_eq_false cs hc, ih cs hcs]

/-- With no backtick in the input, the five fence-removal replaces of the
message-cleaning pipeline are the identity. -/
lemma cleanMessageText_no_backtick {s : List Char} (h : '`' ∉ s) :
    cleanMessageText s = postFenceClean s := by
  simp only [cleanMessageText]
  rw [fenceRemove_id _ _ _ s h, fenceRemove_id _ _ _ s h, fenceRemove_id _ _ _ s h,
    fenceRemove_id _ _ _ s h, fenceRemove_id _ _ _ s h]

/-!  ### Identity conditions for `stripBrackets` (used by the fixed-point
analysis) -/

/-- No opening bracket, pipe or colon characters: none of the rewriting
stages of `stripBrackets` can trigger on such text. -/
def noBadChars (t : List Char) : Bool :=
  t.all (fun c => !(c == '[' || c == '\x7b' || c == '(' || c == '|' || c == ':'))

/-- Neither end of the text is whitespace. -/
def noEdgeWS (t : List Char) : Bool :=
  (match t.head? with
   | some c => !isWSChar c
   | none => true) &&
  (match t.getLast? with
   | some c => !isWSChar c
   | none => true)

/-- No two adjacent whitespace characters. -/
def noDoubleWS : List Char → Bool
  | [] => true
  | [_] => true
  | a :: b :: r => !(isWSChar a && isWSChar b) && noDoubleWS (b :: r)

/-- Texts on which `stripBrackets` acts as the identity. -/
def sbPlainB (t : List Char) : Bool := noBadChars t && noEdgeWS t && noDoubleWS t

lemma noBadChars_mem {t : List Char} (h : noBadChars t = true) {c : Char}
    (hc : c ∈ t) : c ≠ '[' ∧ c ≠ '\x7b' ∧ c ≠ '(' ∧ c ≠ '|' ∧ c ≠ ':' := by
  unfold noBadChars at h
  have := List.all_eq_true.mp h c hc
  simp only [Bool.not_eq_true', Bool.or_eq_false_iff, beq_eq_false_iff_ne] at this
  exact ⟨this.1.1.1.1, this.1.1.1.2, this.1.1.2, this.1.2, this.2⟩

lemma noEdgeWS_head {t : List Char} (h : noEdgeWS t = true) :
    ∀ c, t.head? = some c → isWSChar c = false := by
  intro c hc
  unfold noEdgeWS at h
  rw [hc] at h
  simpa using (andE h).1

lemma noEdgeWS_last {t : List Char} (h : noEdgeWS t = true) :
    ∀ c, t.getLast? = some c → isWSChar c = false := by
  intro c hc
  unfold noEdgeWS at h
  rw [hc] at h
  simpa using (andE h).2

lemma noDoubleWS_tail {a : Char} {r : List Char}
    (h : noDoubleWS (a :: r) = true) : noDoubleWS r = true := by
  match r with
  | [] => rfl
  | b :: r2 => exact (andE h).2

lemma noDoubleWS_pair {a b : Char} {r : List Char}
    (h : noDoubleWS (a :: b :: r) = true) (ha : isWSChar a = true) :
    isWSChar b = false := by
  have := (andE h).1
  simp only [Bool.not_eq_true', Bool.and_eq_false_iff] at this
  rcases this with h1 | h1
  · rw [ha] at h1; cases h1
  · exact h1

lemma dropWhile_id {p : Char → Bool} : ∀ l : List Char,
    (∀ c, l.head? = some c → p c = false) → l.dropWhile p = l := by
  intro l h
  cases l with
  | nil => rfl
  | cons c r => simp [List.dropWhile_cons, h c rfl]

lemma jsTrim_id {t : List Char}
    (h1 : ∀ c, t.head? = some c → isWSChar c = false)
    (h2 : ∀ c, t.getLast? = some c → isWSChar c = false) : jsTrim t = t := by
  unfold jsTrim
  rw [dropWhile_id t h1,
    dropWhile_id t.reverse (fun c hc => h2 c (by rwa [List.head?_reverse] at hc)),
    List.reverse_reverse]

lemma sbUnwrap_id {t : List Char}
    (h : ∀ c, t.head? = some c → c ≠ '[' ∧ c ≠ '\x7b' ∧ c ≠ '(') :
    ∀ n, sbUnwrap n t = t := by
  intro n
  cases n with
  | zero => rfl
  | succ n =>
    cases ht : t.head? with
    | none => simp [sbUnwrap, ht]
    | some c =>
      obtain ⟨h1, h2, h3⟩ := h c ht
      simp [sbUnwrap, ht, beq_iff_eq, h1, h2, h3]

lemma sbPlaceholders_id : ∀ n (t : List Char), (∀ c ∈ t, c ≠ '[') →
    sbPlaceholders n t = t := by
  intro n
  induction n with
  | zero => intro t _; rfl
  | succ n ih =>
    intro t h
    match t with
    | [] => rfl
    | c :: rest =>
      have hc : c ≠ '[' := h c (List.mem_cons_self _ _)
      have hr : ∀ x ∈ rest, x ≠ '[' := fun x hx => h x (List.mem_cons_of_mem _ hx)
      simp [sbPlaceholders, beq_iff_eq, hc, ih rest hr]

lemma sbLabelEmpty_id : ∀ n (ls : Bool) (t : List Char), (∀ c ∈ t, c ≠ ':') →
    sbLabelEmpty n ls t = t := by
  intro n
  induction n with
  | zero => intro ls t _; rfl
  | succ n ih =>
    intro ls t h
    match t with
    | [] => rfl
    | c :: rest =>
      have hr : ∀ x ∈ rest, x ≠ ':' := fun x hx => h x (List.mem_cons_of_mem _ hx)
      cases ls with
      | false =>
        simp only [sbLabelEmpty, Bool.false_eq_true, if_false]
        rw [ih _ rest hr]
      | true =>
        simp only [sbLabelEmpty, if_true]
        split
        · next _ _ _ _ tl _ heq =>
          exfalso
          have : ':' ∈ c :: rest :=
            List.drop_subset _ _ (heq ▸ List.mem_cons_self ':' tl)
          exact h ':' this rfl
        · rw [ih _ rest hr]

lemma sbLabelComma_id : ∀ n (ls : Bool) (t : List Char), (∀ c ∈ t, c ≠ ':') →
    sbLabelComma n ls t = t := by
  intro n
  induction n with
  | zero => intro ls t _; rfl
  | succ n ih =>
    intro ls t h
    match t with
    | [] => rfl
    | c :: rest =>
      have hr : ∀ x ∈ rest, x ≠ ':' := fun x hx => h x (List.mem_cons_of_mem _ hx)
      cases ls with
      | false =>
        simp only [sbLabelComma, Bool.false_eq_true, if_false]
        rw [ih _ rest hr]
      | true =>
        simp only [sbLabelComma, if_true]
        split
        · next _ _ _ _ tl _ heq =>
          exfalso
          have : ':' ∈ c :: rest :=
            List.drop_subset _ _ (heq ▸ List.mem_cons_self ':' tl)
          exact h ':' this rfl
        · rw [ih _ rest hr]

lemma sbColonPipe_id : ∀ n (t : List Char), (∀ c ∈ t, c ≠ ':') →
    sbColonPipe n t = t := by
  intro n
  induction n with
  | zero => intro t _; rfl
  | succ n ih =>
    intro t h
    match t with
    | [] => rfl
    | c :: rest =>
      have hc : c ≠ ':' := h c (List.mem_cons_self _ _)
      have hr : ∀ x ∈ rest, x ≠ ':' := fun x hx => h x (List.mem_cons_of_mem _ hx)
      simp [sbColonPipe, beq_iff_eq, hc, ih rest hr]

lemma sbPipePipe_id : ∀ n (t : List Char), (∀ c ∈ t, c ≠ '|') →
    sbPipePipe n t = t := by
  intro n
  induction n with
  | zero => intro t _; rfl
  | succ n ih =>
    intro t h
    match t with
    | [] => rfl
    | c :: rest =>
      have hc : c ≠ '|' := h c (List.mem_cons_self _ _)
      have hr : ∀ x ∈ rest, x ≠ '|' := fun x hx => h x (List.mem_cons_of_mem _ hx)
      simp [sbPipePipe, beq_iff_eq, hc, ih rest hr]

lemma sbTrailingPipe_id : ∀ n (t : List Char), (∀ c ∈ t, c ≠ '|') →
    sbTrailingPipe n t = t := by
  intro n
  induction n with
  | zero => intro t _; rfl
  | succ n ih =>
    intro t h
    match t with
    | [] => rfl
    | c :: rest =>
      have hc : c ≠ '|' := h c (List.mem_cons_self _ _)
      have hr : ∀ x ∈ rest, x ≠ '|' := fun x hx => h x (List.mem_cons_of_mem _ hx)
      simp [sbTrailingPipe, beq_iff_eq, hc, ih rest hr]

lemma sbSpaces_id : ∀ n (t : List Char), noDoubleWS t = true →
    sbSpaces n t = t := by
  intro n
  induction n with
  | zero => intro t _; rfl
  | succ n ih =>
    intro t h
    match t with
    | [] => rfl
    | c :: rest =>
      have ht : noDoubleWS rest = true := noDoubleWS_tail h
      by_cases hw : isWSChar c = true
      · have hempty : rest.takeWhile isWSChar = [] := by
          match rest with
          | [] => rfl
          | d :: r2 =>
            have := noDoubleWS_pair h hw
            simp [List.takeWhile_cons, this]
        simp [sbSpaces, hw, hempty, ih rest ht]
      · simp only [Bool.not_eq_true] at hw
        simp [sbSpaces, hw, ih rest ht]

lemma sbEmptyLines_id : ∀ n (ls : Bool) (t : List Char), noDoubleWS t = true →
    (ls = true → ∀ c, t.head? = some c → isWSChar c = false) →
    sbEmptyLines n ls t = t := by
  intro n
  induction n with
  | zero => intro ls t _ _; rfl
  | succ n ih =>
    intro ls t h hinv
    match t with
    | [] => rfl
    | c :: rest =>
      have ht : noDoubleWS rest = true := noDoubleWS_tail h
      have hrec : (c == '\n') = true → ∀ d, rest.head? = some d → isWSChar d = false := by
        intro hcn d hd
        have hc : c = '\n' := by simpa [beq_iff_eq] using hcn
        match rest, hd with
        | d :: r2, rfl =>
          exact noDoubleWS_pair (hc ▸ h) (by simp [isWSChar])
      cases ls with
      | false =>
        simp only [sbEmptyLines, Bool.false_eq_true, if_false]
        rw [ih _ rest ht hrec]
      | true =>
        have hc : isWSChar c = false := hinv rfl c rfl
        have hcn : ¬ c = '\n' := by
          intro he
          rw [he] at hc
          simp [isWSChar] at hc
        have htw : (c :: rest).takeWhile isWSChar = [] := by
          simp [List.takeWhile_cons, hc]
        simp only [sbEmptyLines, if_true, htw, List.length_nil, nlSpanFrom,
          List.head?_cons, beq_iff_eq, Option.some.injEq, if_neg hcn]
        rw [ih _ rest ht hrec]

/-- On texts with no opening bracket, pipe or colon, no whitespace at either
end and no two adjacent whitespace characters, every stage of
`stripBrackets` is the identity. -/
lemma stripBrackets_id {t : List Char} (h : sbPlainB t = true) :
    stripBrackets t = t := by
  have hb : noBadChars t = true := (andE (andE h).1).1
  have he : noEdgeWS t = true := (andE (andE h).1).2
  have hd : noDoubleWS t = true := (andE h).2
  have hHead := noEdgeWS_head he
  have hLast := noEdgeWS_last he
  have hjs : jsTrim t = t := jsTrim_id hHead hLast
  have hun : ∀ n, sbUnwrap n t = t :=
    sbUnwrap_id (fun c hc =>
      (fun hm => ⟨(noBadChars_mem hb hm).1, (noBadChars_mem hb hm).2.1,
        (noBadChars_mem hb hm).2.2.1⟩) (mem_of_head? hc))
  have hlb : ∀ c ∈ t, c ≠ '[' := fun c hc => (noBadChars_mem hb hc).1
  have hco : ∀ c ∈ t, c ≠ ':' := fun c hc => (noBadChars_mem hb hc).2.2.2.2
  have hpi : ∀ c ∈ t, c ≠ '|' := fun c hc => (noBadChars_mem hb hc).2.2.2.1
  unfold stripBrackets
  simp only [hjs, hun, sbPlaceholders_id _ t hlb, sbLabelEmpty_id _ _ t hco,
    sbLabelComma_id _ _ t hco, sbColonPipe_id _ t hco, sbPipePipe_id _ t hpi,
    sbTrailingPipe_id _ t hpi, sbSpaces_id _ t hd,
    sbEmptyLines_id _ _ t hd (fun _ => hHead)]

/-!  ### Ledger and action-scan lemmas -/

lemma ledgerLookup_insert (l : List (Nat × SwipeSnapshot)) (i : Nat)
    (v : SwipeSnapshot) : ledgerLookup (ledgerInsert l i v) i = some v := by
  induction l with
  | nil => simp [ledgerInsert, ledgerLookup]
  | cons p rest ih =>
    obtain ⟨j, w⟩ := p
    by_cases hj : j = i
    · simp [ledgerInsert, hj, ledgerLookup]
    · simp [ledgerInsert, hj, ledgerLookup, ih]

lemma scanActions_le (att : List Char → Option (List Char × List Char)) :
    ∀ n (ls : Bool) (s : List Char) (acc : List (List Char)),
      acc.length ≤ 2 → (scanActions att n ls s acc).length ≤ 3 := by
  intro n
  induction n with
  | zero =>
    intro ls s acc h
    simp only [scanActions]
    omega
  | succ n ih =>
    intro ls s acc h
    match s with
    | [] =>
      simp only [scanActions]
      omega
    | c :: cs =>
      cases ls with
      | false =>
        simp only [scanActions, Bool.false_eq_true, if_false]
        exact ih _ cs acc h
      | true =>
        simp only [scanActions, if_true]
        rcases hat : att (c :: cs) with _ | ⟨g2, rest⟩
        · exact ih _ cs acc h
        · simp only [hat]
          split_ifs with h1 h2 h3 h4 h5 <;>
            first
            | (simp only [List.length_append, List.length_singleton] at *; omega)
            | (apply ih
               simp only [List.length_append, List.length_singleton] at *
               omega)

lemma parseActionSuggestions_le (s : List Char) :
    (parseActionSuggestions s).length ≤ 3 := by
  simp only [parseActionSuggestions]
  split_ifs with h1 h2
  · simp
  · exact scanActions_le bulletAttempt _ true s [] (by simp)
  · exact scanActions_le numAttempt _ true s [] (by simp)

/-!  ### Concrete fixtures used by witnesses and counterexamples -/

def cfgTogether : Settings := ⟨true, GenMode.together⟩

def cfgSeparate : Settings := ⟨true, GenMode.separate⟩

def stSample : TrackerState :=
  ⟨⟨some (chars "A"), none, none, none⟩, ⟨some (chars "S"), none, none⟩,
   false, false, false⟩

def stEmpty : TrackerState :=
  ⟨⟨none, none, none, none⟩, ⟨none, none, none⟩, false, false, false⟩

def msgHello : ChatMessage := ⟨false, chars "hello", none, none, none⟩

/-!  ### Claims -/

/-- C1: for every prior state of LastGenerated (including the all-null
snapshot), when a generation starts following a new user message (the
pending-swipe flag is false, no image generation, no tracker-update
generation in flight) with the extension enabled in together or separate
mode, the three Committed fields become the LastGenerated values from
immediately before the event. -/
theorem c1_new_message_promotes (cfg : Settings) (st : TrackerState)
    (hen : cfg.enabled = true)
    (hmode : cfg.generationMode = GenMode.together ∨
      cfg.generationMode = GenMode.separate)
    (hsw : st.lastActionWasSwipe = false)
    (hgen : st.isGenerating = false) :
    (onGenerationStarted false cfg st).committed =
      ⟨st.lastGenerated.userStats, st.lastGenerated.infoBox,
        st.lastGenerated.characterThoughts⟩ := by
  rcases hmode with h | h <;>
    simp [onGenerationStarted, hen, hsw, hgen, h]

theorem c1_witness :
    (onGenerationStarted false cfgTogether stSample).committed =
      ⟨some (chars "A"), none, none⟩ :=
  c1_new_message_promotes cfgTogether stSample rfl (Or.inl rfl) rfl rfl

/-- C5: at the moment a parse completes (together mode, enabled, assistant
last message) with Committed empty on all fields, Committed is set to the
newly parsed snapshot without waiting for a user reply. -/
theorem c5_first_parse_auto_commits (cfg : Settings) (st : TrackerState)
    (m : ChatMessage) (hen : cfg.enabled = true)
    (hmode : cfg.generationMode = GenMode.together)
    (hnu : m.is_user = false)
    (hempty : truthyOpt st.committed.userStats = false ∧
      truthyOpt st.committed.infoBox = false ∧
      truthyOpt st.committed.characterThoughts = false) :
    (onMessageReceived cfg st (some m)).1.committed =
      ⟨(parseResponse m.mes).userStats, (parseResponse m.mes).infoBox,
        (parseResponse m.mes).characterThoughts⟩ := by
  obtain ⟨h1, h2, h3⟩ := hempty
  simp [onMessageReceived, hen, hmode, hnu, h1, h2, h3]
  split_ifs <;> rfl

theorem c5_witness :
    (onMessageReceived cfgTogether stEmpty (some msgHello)).1.committed =
      ⟨none, none, none⟩ := by
  have h := c5_first_parse_auto_commits cfgTogether stEmpty msgHello rfl rfl rfl
    ⟨rfl, rfl, rfl⟩
  exact h.trans (by decide)

/-- C10: a swipe event for a missing message or a user message changes no
tracker state at all; and when the target swipe index has no ledger entry,
LastGenerated keeps its previous value. -/
theorem c10_swipe_edge_cases :
    (∀ (cfg : Settings) (chat : List ChatMessage) (idx : Nat) (st : TrackerState),
      (chat[idx]? = none ∨ ∃ m, chat[idx]? = some m ∧ m.is_user = true) →
      onMessageSwiped cfg chat idx st = st) ∧
    (∀ (cfg : Settings) (chat : List ChatMessage) (idx : Nat) (st : TrackerState)
      (m : ChatMessage), chat[idx]? = some m → m.is_user = false →
      (m.extraSwipes = none ∨
        ∃ l, m.extraSwipes = some l ∧ ledgerLookup l (m.swipe_id.getD 0) = none) →
      (onMessageSwiped cfg chat idx st).lastGenerated = st.lastGenerated) := by
  constructor
  · rintro cfg chat idx st (h | ⟨m, hm, hu⟩)
    · simp [onMessageSwiped, h]
    · simp [onMessageSwiped, hm, hu]
  · rintro cfg chat idx st m hm hu (h | ⟨l, hl, hnone⟩)
    · simp [onMessageSwiped, hm, hu, h]
      split_ifs <;> rfl
    · simp [onMessageSwiped, hm, hu, hl, hnone]
      split_ifs <;> rfl

theorem c10_witness :
    onMessageSwiped cfgTogether [] 0 stSample = stSample ∧
    (onMessageSwiped cfgTogether [msgHello] 0 stSample).lastGenerated =
      stSample.lastGenerated :=
  ⟨c10_swipe_edge_cases.1 cfgTogether [] 0 stSample (Or.inl rfl),
   c10_swipe_edge_cases.2 cfgTogether [msgHello] 0 stSample msgHello rfl rfl
     (Or.inl rfl)⟩

/-- The swipe-ledger entry of the (possibly rewritten) last message after an
event, at a given swipe index. -/
def lastLedgerEntry (r : TrackerState × Option ChatMessage) (i : Nat) :
    Option SwipeSnapshot :=
  match r.2 with
  | some m => ledgerLookup (m.extraSwipes.getD []) i
  | none => none

/-- After any `onMessageReceived` run with the extension enabled, the
pending-swipe flag is false (the handler resets it on every path). -/
lemma onMessageReceived_flag (cfg : Settings) (st : TrackerState)
    (msg? : Option ChatMessage) (hen : cfg.enabled = true) :
    (onMessageReceived cfg st msg?).1.lastActionWasSwipe = false := by
  rcases msg? with _ | m
  · simp [onMessageReceived, hen]
    split_ifs <;> simp_all
  · by_cases hm : m.is_user = true <;>
      by_cases hmode : cfg.generationMode = GenMode.together <;>
      (simp [onMessageReceived, hen, hm, hmode]; split_ifs <;> simp_all)

/-- C2 (amended): when a parse yields the all-null snapshot, LastGenerated
is left unchanged (each field is copied only when the parsed field is
non-null); the all-null snapshot is still recorded wholesale in the swipe
ledger entry of the current swipe index. -/
theorem c2_amended_null_parse_keeps_lastGenerated (cfg : Settings)
    (st : TrackerState) (m : ChatMessage) (hen : cfg.enabled = true)
    (hmode : cfg.generationMode = GenMode.together) (hnu : m.is_user = false)
    (hall : parseResponse m.mes = ⟨none, none, none, none⟩) :
    (onMessageReceived cfg st (some m)).1.lastGenerated = st.lastGenerated ∧
    lastLedgerEntry (onMessageReceived cfg st (some m)) (m.swipe_id.getD 0) =
      some ⟨none, none, none, none⟩ := by
  constructor
  · simp [onMessageReceived, hen, hmode, hnu, hall, truthyOpt]
    split_ifs <;> rfl
  · simp [onMessageReceived, hen, hmode, hnu, hall, lastLedgerEntry,
      ledgerLookup_insert]

theorem c2_witness :
    (onMessageReceived cfgTogether stSample (some msgHello)).1.lastGenerated =
      ⟨some (chars "A"), none, none, none⟩ ∧
    lastLedgerEntry (onMessageReceived cfgTogether stSample (some msgHello)) 0 =
      some ⟨none, none, none, none⟩ := by
  have h := c2_amended_null_parse_keeps_lastGenerated cfgTogether stSample
    msgHello rfl rfl rfl (by decide)
  exact ⟨h.1.trans (by decide), h.2⟩

/-- C2 counterexample: with a prior LastGenerated value and a reply whose
parse is all-null, LastGenerated is NOT overwritten with the all-null
snapshot — the old value survives. -/
theorem c2_counterexample :
    parseResponse (chars "hello") = ⟨none, none, none, none⟩ ∧
    (onMessageReceived cfgTogether stSample (some msgHello)).1.lastGenerated.userStats =
      some (chars "A") := by
  decide

/-- C3 (amended): navigating to an existing swipe whose ledger entry is `S`
loads `S` into LastGenerated with each empty-string field coerced to null
(`swipeData.field || null`); Committed and the pending-swipe flag are
unchanged. -/
theorem c3_amended_swipe_navigation (cfg : Settings) (chat : List ChatMessage)
    (idx : Nat) (st : TrackerState) (m : ChatMessage)
    (L : List (Nat × SwipeSnapshot)) (S : SwipeSnapshot)
    (hen : cfg.enabled = true) (hm : chat[idx]? = some m)
    (hnu : m.is_user = false) (hex : m.extraSwipes = some L)
    (hS : ledgerLookup L (m.swipe_id.getD 0) = some S)
    (hexist : swipeExists m = true) :
    (onMessageSwiped cfg chat idx st).lastGenerated =
      ⟨jsOrNull S.userStats, jsOrNull S.infoBox, jsOrNull S.characterThoughts,
        st.lastGenerated.html⟩ ∧
    (onMessageSwiped cfg chat idx st).committed = st.committed ∧
    (onMessageSwiped cfg chat idx st).lastActionWasSwipe =
      st.lastActionWasSwipe := by
  simp [onMessageSwiped, hen, hm, hnu, hex, hS, hexist]

def msgLedgerW : ChatMessage :=
  ⟨false, chars "t", none, some [some (chars "t")],
   some [(0, ⟨some (chars "S"), none, some [], none⟩)]⟩

theorem c3_witness :
    (onMessageSwiped cfgTogether [msgLedgerW] 0 stSample).lastGenerated =
      ⟨some (chars "S"), none, none, none⟩ ∧
    (onMessageSwiped cfgTogether [msgLedgerW] 0 stSample).committed =
      stSample.committed ∧
    (onMessageSwiped cfgTogether [msgLedgerW] 0 stSample).lastActionWasSwipe =
      stSample.lastActionWasSwipe := by
  have h := c3_amended_swipe_navigation cfgTogether [msgLedgerW] 0 stSample
    msgLedgerW [(0, ⟨some (chars "S"), none, some [], none⟩)]
    ⟨some (chars "S"), none, some [], none⟩ rfl rfl rfl rfl (by decide) (by decide)
  exact ⟨h.1.trans (by decide), h.2.1, h.2.2⟩

def msgDLT : ChatMessage :=
  ⟨false, chars "```\nDate:\nLocation:\nTime:\n```", none,
   some [some (chars "x")], none⟩

def recvDLT : TrackerState × Option ChatMessage :=
  onMessageReceived cfgTogether stEmpty (some msgDLT)

def msgAfterDLT : ChatMessage := recvDLT.2.getD msgHello

def stAfterDLT : TrackerState := recvDLT.1

/-- C3 counterexample: a real parse can record a ledger snapshot whose
infoBox field is the empty string (e.g. a fenced `Date:/Location:/Time:`
block whose placeholder cleanup empties it); navigating back to that swipe
loads null, not the recorded empty string, so LastGenerated does not equal
the recorded snapshot exactly. -/
theorem c3_counterexample :
    lastLedgerEntry recvDLT 0 = some ⟨none, some [], none, none⟩ ∧
    swipeExists msgAfterDLT = true ∧
    (onMessageSwiped cfgTogether [msgAfterDLT] 0 stAfterDLT).lastGenerated.infoBox =
      none := by
  decide

/-- C4 (amended): whenever generation completes with the extension enabled,
the pending-swipe flag is false afterwards; in together mode with an
assistant last message the ledger entry of the current swipe index is
overwritten wholesale with the newly parsed snapshot (not with
LastGenerated, whose fields are only updated by non-null parsed values). -/
theorem c4_amended_ledger_records_parsed (cfg : Settings) (st : TrackerState)
    (m : ChatMessage) (hen : cfg.enabled = true)
    (hmode : cfg.generationMode = GenMode.together) (hnu : m.is_user = false) :
    lastLedgerEntry (onMessageReceived cfg st (some m)) (m.swipe_id.getD 0) =
      some ⟨(parseResponse m.mes).userStats, (parseResponse m.mes).infoBox,
        (parseResponse m.mes).characterThoughts,
        (parseResponse m.mes).actionSuggestions⟩ ∧
    (∀ (cfg2 : Settings) (st2 : TrackerState) (msg2 : Option ChatMessage),
      cfg2.enabled = true →
      (onMessageReceived cfg2 st2 msg2).1.lastActionWasSwipe = false) := by
  constructor
  · simp [onMessageReceived, hen, hmode, hnu, lastLedgerEntry,
      ledgerLookup_insert]
  · exact fun cfg2 st2 msg2 hen2 => onMessageReceived_flag cfg2 st2 msg2 hen2

theorem c4_witness :
    lastLedgerEntry (onMessageReceived cfgTogether stSample (some msgHello)) 0 =
      some ⟨none, none, none, none⟩ ∧
    (onMessageReceived cfgSeparate stSample none).1.lastActionWasSwipe = false := by
  have h := c4_amended_ledger_records_parsed cfgTogether stSample msgHello
    rfl rfl rfl
  exact ⟨h.1.trans (by decide), h.2 cfgSeparate stSample none rfl⟩

/-- C4 counterexample: the ledger entry written on generation completion is
the parsed snapshot, not LastGenerated — with a prior LastGenerated value
and a trackerless reply they differ. -/
theorem c4_counterexample :
    lastLedgerEntry (onMessageReceived cfgTogether stSample (some msgHello)) 0 =
      some ⟨none, none, none, none⟩ ∧
    (onMessageReceived cfgTogether stSample (some msgHello)).1.lastGenerated.userStats =
      some (chars "A") ∧
    some (chars "A") ≠ (none : Option (List Char)) := by
  refine ⟨?_, ?_, by decide⟩ <;> decide

/-- The non-whitespace characters of a text, in order: any purely
whitespace-level normalization preserves this projection. -/
def nonWsChars (t : List Char) : List Char := t.filter (fun c => !isWSChar c)

/-- C6 (amended): for raw text without backtick characters (hence with zero
fenced code regions), `parseResponse` returns the all-null snapshot and the
message cleaning reduces to its post-fence stages: standalone `---` divider
lines removed, runs of three or more newlines collapsed to two. -/
theorem c6_amended_no_fence_parse (s : List Char) (h : '`' ∉ s) :
    (parseResponse s = ⟨none, none, none, none⟩ ∧
      cleanMessageText s = postFenceClean s) ∧
    (∀ raw : List Char, (∀ b ∈ responseBlocks raw, blockUnclassified b = true) →
      parseResponse raw = ⟨none, none, none, none⟩) :=
  ⟨⟨parseResponse_allNull h, cleanMessageText_no_backtick h⟩,
   fun _ hraw => parseResponse_allNull_of_unclassified hraw⟩

theorem c6_witness :
    (parseResponse (chars "hi") = ⟨none, none, none, none⟩ ∧
      cleanMessageText (chars "hi") = postFenceClean (chars "hi")) ∧
    parseResponse (chars "```\nx\n```") = ⟨none, none, none, none⟩ :=
  ⟨(c6_amended_no_fence_parse (chars "hi") (by decide)).1,
   (c6_amended_no_fence_parse (chars "hi") (by decide)).2
     (chars "```\nx\n```") (by decide)⟩

/-- C6 counterexample: a fence-free input containing a standalone `---`
divider line loses that line in the cleaned text, so the cleaned text is not
a whitespace-normalization of the input (the non-whitespace characters
differ). -/
theorem c6_counterexample :
    parseResponse (chars "a\n---\nb") = ⟨none, none, none, none⟩ ∧
    jsTrim (cleanMessageText (chars "a\n---\nb")) = chars "a\n\nb" ∧
    nonWsChars (chars "a\n---\nb") ≠ nonWsChars (chars "a\n\nb") := by
  decide

/-- C7 (amended): re-running `parseResponse` on the cleaned text yields the
all-null snapshot whenever the cleaning removed every backtick (in
particular every fenced region); blocks recognised only through fallback
heuristics survive cleaning and are re-extracted. -/
theorem c7_amended_idempotent_when_fences_removed (raw : List Char)
    (h : '`' ∉ jsTrim (cleanMessageText raw)) :
    parseResponse (jsTrim (cleanMessageText raw)) = ⟨none, none, none, none⟩ :=
  parseResponse_allNull h

theorem c7_witness :
    parseResponse (jsTrim (cleanMessageText (chars "hi"))) =
      ⟨none, none, none, none⟩ :=
  c7_amended_idempotent_when_fences_removed (chars "hi") (by decide)

def rawHE : List Char := chars "```\nHealth: 50%\nEnergy: 60%\n```"

/-- C7 counterexample: a fenced block recognised as stats only through the
`Health:`/`Energy:` percentage fallback is not removed by the header-based
cleaning regexes, so re-parsing the cleaned text re-extracts it. -/
theorem c7_counterexample :
    jsTrim (cleanMessageText rawHE) = rawHE ∧
    (parseResponse (jsTrim (cleanMessageText rawHE))).userStats =
      some (chars "Health: 50%\nEnergy: 60%") := by
  decide

/-- C8 (amended): `stripBrackets` is not idempotent in general (stray-pipe
cleanup can take two passes); it is the identity — hence a fixed point — on
texts containing no opening bracket, pipe or colon characters, with no
whitespace at either end and no two adjacent whitespace characters. -/
theorem c8_amended_fixed_point_on_plain (t : List Char)
    (h : sbPlainB t = true) :
    stripBrackets t = t ∧
    stripBrackets (stripBrackets t) = stripBrackets t := by
  have e := stripBrackets_id h
  exact ⟨e, by rw [e, e]⟩

theorem c8_witness :
    stripBrackets (chars "abc") = chars "abc" ∧
    stripBrackets (stripBrackets (chars "abc")) = stripBrackets (chars "abc") :=
  c8_amended_fixed_point_on_plain (chars "abc") (by decide)

/-- C8 counterexample: applying the transform twice differs from applying it
once on `"| | |"` — one pass leaves `"|"`, a second pass removes it. -/
theorem c8_counterexample :
    stripBrackets (chars "| | |") = chars "|" ∧
    stripBrackets (chars "|") = chars "" ∧
    stripBrackets (stripBrackets (chars "| | |")) ≠
      stripBrackets (chars "| | |") := by
  decide

/-- C9 (amended): the extraction scans numbered lines in order, falls back
to bullets only when no numbered entry is accepted, strips bracketed
placeholders and surrounding quotes, accepts at most three entries, and the
given scenario yields exactly its three strings; entries are discarded when
shorter than 1 character or 200 characters or longer (the length bound is
strict: `length < 200`). -/
theorem c9_amended_action_extraction :
    parseActionSuggestions
        (chars "1. Open the door\n2. Ask about the letter\n3. Leave") =
      [chars "Open the door", chars "Ask about the letter", chars "Leave"] ∧
    parseActionSuggestions
        (chars "no numbers\n- run away\n• hide\n* fight\n- extra") =
      [chars "run away", chars "hide", chars "fight"] ∧
    parseActionSuggestions (chars "1. [First action] \"Go\"\n- bullet ignored") =
      [chars "Go"] ∧
    (∀ s : List Char, (parseActionSuggestions s).length ≤ 3) :=
  ⟨by decide, by decide, by decide, parseActionSuggestions_le⟩

def longAction : List Char := chars "1. " ++ List.replicate 200 'a'

set_option maxRecDepth 40000 in
/-- C9 counterexample: an entry of exactly 200 characters is discarded by
the source (`length < 200`) but kept by the claim as worded ("longer than
200 characters are discarded"). -/
theorem c9_counterexample :
    parseActionSuggestions longAction = [] ∧
    parseActionSuggestionsSpec longAction = [List.replicate 200 'a'] := by
  decide

end RPG
